import Mathlib

/-!
# A shallow embedding of the `notzod` validation engine

This file embeds the core of the `notzod` schema-validation library
(`src/core/schema.ts`, `src/schemas/{string,number,boolean,literal,array,object,union}.ts`)
into Lean and proves/refutes the frozen claims about it.

Modelling conventions:

* JavaScript runtime values are modelled by `JSValue`.  JavaScript numbers are
  modelled by their integral subset plus `NaN` (`JSNum`): every constraint,
  message and input exercised by the claims is integral, and `NaN` is the one
  non-finite value the validators inspect (`Number.isNaN`).
* `string.length` (UTF-16 code units) is modelled by Lean's `String.length`;
  the two agree on all strings appearing in the development.
* A `RegExp`'s `test` method is modelled in the main development as a pure
  predicate `String → Bool` (adequate for patterns without the `g`/`y` flags);
  a refined stateful model used to analyse pattern compilation appears in the
  `RegexModel` section below.
* The validators are written against `ValidationResult` = `VResult`;
  `_parse` is a total function, embedded as `parseNode` below.
* The recursive interpreter is defined with an explicit fuel parameter
  (`parseFuel`) so that it is structurally recursive and evaluates by `rfl`;
  `sizeOf` of the schema is always enough fuel, and `parseNode` fixes the fuel
  at that bound.  Fuel-irrelevance lemmas recover the clean recursive
  equations.
-/

namespace NotZod

/-- JavaScript numbers, restricted to the integral values plus `NaN`
(see module docstring). -/
inductive JSNum where
  | nan : JSNum
  | int : Int → JSNum
deriving DecidableEq, Repr

/-- JavaScript runtime values: `undefined`, `null`, booleans, numbers,
strings, arrays and plain objects (ordered field lists). -/
inductive JSValue where
  | undefined : JSValue
  | null : JSValue
  | bool : Bool → JSValue
  | num : JSNum → JSValue
  | str : String → JSValue
  | arr : List JSValue → JSValue
  | obj : List (String × JSValue) → JSValue

/-- `typeof` for the modelled values.  Note `typeof null`, `typeof []`
and `typeof {}` are all `"object"`, and `typeof NaN` is `"number"`. -/
def typeofStr : JSValue → String
  | .undefined => "undefined"
  | .null => "object"
  | .bool _ => "boolean"
  | .num _ => "number"
  | .str _ => "string"
  | .arr _ => "object"
  | .obj _ => "object"

/-- Decimal value of a digit character, if it is one. -/
def digitVal (c : Char) : Option Nat :=
  if 48 ≤ c.toNat && c.toNat ≤ 57 then some (c.toNat - 48) else none

/-- Read a decimal numeral from a digit list. -/
def natFromDigits : List Char → Nat → Option Nat
  | [], acc => some acc
  | c :: cs, acc =>
    match digitVal c with
    | some d => natFromDigits cs (acc * 10 + d)
    | none => none

/-- Parse a string of decimal digits as a natural number. -/
def strToNat? (s : String) : Option Nat :=
  match s.data with
  | [] => none
  | ds => natFromDigits ds 0

/-- Is `s` the canonical decimal numeral of an array index
(ECMAScript: an integer `n` with `ToString(n) = s` and `n < 2^32 - 1`)? -/
def isArrayIndexKey (s : String) : Bool :=
  match strToNat? s with
  | some n => Nat.repr n == s && n < 4294967295
  | none => false

/-- Property lookup `value[key]`, returning `undefined` for an absent
property.  Arrays expose their elements under canonical index keys and
their length under `"length"`; objects return the first binding of the
key. -/
def getProp (v : JSValue) (key : String) : JSValue :=
  match v with
  | .obj fields =>
    match fields.find? (fun p => p.1 == key) with
    | some p => p.2
    | none => .undefined
  | .arr xs =>
    if key == "length" then .num (.int xs.length)
    else
      match strToNat? key with
      | some n => if Nat.repr n == key then (xs.getD n .undefined) else .undefined
      | none => .undefined
  | _ => .undefined

/-- Insert a keyed entry into a list sorted by numeric key value
(helper for the ECMAScript own-property order). -/
def insertIdx {α : Type} (x : String × α) : List (String × α) → List (String × α)
  | [] => [x]
  | y :: ys =>
    if ((strToNat? x.1).getD 0) ≤ ((strToNat? y.1).getD 0) then x :: y :: ys
    else y :: insertIdx x ys

/-- Sort keyed entries by numeric key value (stable insertion sort). -/
def sortIdx {α : Type} : List (String × α) → List (String × α)
  | [] => []
  | x :: xs => insertIdx x (sortIdx xs)

/-- ECMAScript own-property order of an object literal's fields:
array-index keys first, in ascending numeric order, then the remaining
keys in insertion (declaration) order.  `for (const key in o)` iterates
in this order. -/
def orderFields {α : Type} (fs : List (String × α)) : List (String × α) :=
  sortIdx (fs.filter (fun p => isArrayIndexKey p.1)) ++
    fs.filter (fun p => !isArrayIndexKey p.1)

/-- Evaluating a JS object literal with the given textual field order
produces an object whose own-property order is `orderFields`. -/
def jsRecord (fs : List (String × JSValue)) : JSValue :=
  .obj (orderFields fs)

/-- Is the value `undefined`? -/
def isUndefined : JSValue → Bool
  | .undefined => true
  | _ => false

/-- Is the value `null`? -/
def isNull : JSValue → Bool
  | .null => true
  | _ => false

/-- The structured error carried by a validation failure
(`{ path, message, data }` in the source). -/
structure VErrorInfo where
  path : List String
  message : String
  data : JSValue

/-- `ValidationResult<T>`: success with the validated value, or a
structured failure. -/
inductive VResult where
  | success : JSValue → VResult
  | failure : VErrorInfo → VResult

/-- Is the result a success (`result.success` in the source)? -/
def VResult.isSuccess : VResult → Bool
  | .success _ => true
  | .failure _ => false

/-- Run a list of optional checks in order and return the first failure,
or `ok` if none fails (models the source's early-return check chains). -/
def firstFail (checks : List (Option VErrorInfo)) (ok : VResult) : VResult :=
  match checks.findSome? id with
  | some e => .failure e
  | none => ok

/-- `StringSchema._parse`: type check, then `minLength`, `maxLength` and
`pattern` in order, short-circuiting at the first failure. -/
def stringParse (minLength maxLength : Option Nat) (pattern : Option (String → Bool))
    (v : JSValue) (path : List String) : VResult :=
  match v with
  | .str s =>
    firstFail
      [ minLength.bind (fun m =>
          if s.length < m then
            some ⟨path, "String must be at least " ++ toString m ++ " characters", .str s⟩
          else none),
        maxLength.bind (fun m =>
          if s.length > m then
            some ⟨path, "String must be at most " ++ toString m ++ " characters", .str s⟩
          else none),
        pattern.bind (fun test =>
          if !test s then some ⟨path, "String does not match pattern", .str s⟩ else none) ]
      (.success (.str s))
  | _ => .failure ⟨path, "Expected string, got " ++ typeofStr v, v⟩

/-- `NumberSchema._parse`: rejects non-numbers and `NaN`, then checks
`min`, `max`, `isPositive`, `isNegative` in order. -/
def numberParse (min max : Option Int) (isPositive isNegative : Bool)
    (v : JSValue) (path : List String) : VResult :=
  match v with
  | .num (.int n) =>
    firstFail
      [ min.bind (fun m =>
          if n < m then some ⟨path, "Number must be at least " ++ toString m, .num (.int n)⟩
          else none),
        max.bind (fun m =>
          if n > m then some ⟨path, "Number must be at most " ++ toString m, .num (.int n)⟩
          else none),
        (if isPositive && n ≤ 0 then some ⟨path, "Number must be positive", .num (.int n)⟩
         else none),
        (if isNegative && n ≥ 0 then some ⟨path, "Number must be negative", .num (.int n)⟩
         else none) ]
      (.success (.num (.int n)))
  | _ => .failure ⟨path, "Expected number, got " ++ typeofStr v, v⟩

/-- `BooleanSchema._parse`: type check, then `strictTrue`, `strictFalse`. -/
def booleanParse (strictTrue strictFalse : Bool) (v : JSValue) (path : List String) : VResult :=
  match v with
  | .bool b =>
    firstFail
      [ (if strictTrue && !b then some ⟨path, "Boolean must be true", .bool b⟩ else none),
        (if strictFalse && b then some ⟨path, "Boolean must be false", .bool b⟩ else none) ]
      (.success (.bool b))
  | _ => .failure ⟨path, "Expected boolean, got " ++ typeofStr v, v⟩

/-- Literal values a `LiteralSchema` may hold (`string | number | boolean`). -/
inductive LitValue where
  | str : String → LitValue
  | int : Int → LitValue
  | bool : Bool → LitValue

/-- The JS value of a literal. -/
def LitValue.toJS : LitValue → JSValue
  | .str s => .str s
  | .int n => .num (.int n)
  | .bool b => .bool b

/-- Strict equality of a literal against a runtime value (`value !== this.value`). -/
def LitValue.eqJS : LitValue → JSValue → Bool
  | .str s, .str t => s == t
  | .int n, .num (.int m) => n == m
  | .bool a, .bool b => a == b
  | _, _ => false

/-- Escape a string for JSON rendering (quote, backslash, newline). -/
def jsonEsc (s : String) : String :=
  s.foldl (fun acc c =>
    acc ++ (if c = '"' then "\\\"" else if c = '\\' then "\\\\"
            else if c = '\n' then "\\n" else String.singleton c)) ""

/-- A JSON string literal. -/
def jsonQuote (s : String) : String := "\"" ++ jsonEsc s ++ "\""

/-- `JSON.stringify` on the modelled values (fuelled so it evaluates by
`rfl`; `none` is JS `undefined`, which `JSON.stringify` returns for
`undefined` input).  Only used to render literal-mismatch messages. -/
def jsonOfFuel : Nat → JSValue → Option String
  | 0, _ => none
  | fuel+1, v =>
    match v with
    | .undefined => none
    | .null => some "null"
    | .bool b => some (if b then "true" else "false")
    | .num .nan => some "null"
    | .num (.int n) => some (toString n)
    | .str s => some (jsonQuote s)
    | .arr xs =>
      some ("[" ++ String.intercalate ","
        (xs.map (fun x => (jsonOfFuel fuel x).getD "null")) ++ "]")
    | .obj fs =>
      some ("\x7b" ++ String.intercalate ","
        ((fs.filter (fun p => (jsonOfFuel fuel p.2).isSome)).map
          (fun p => jsonQuote p.1 ++ ":" ++ ((jsonOfFuel fuel p.2).getD "null"))) ++ "\x7d")

mutual

/-- Size of a JS value (fuel bound for `jsonOfFuel`). -/
def jsSize : JSValue → Nat
  | .undefined => 1
  | .null => 1
  | .bool _ => 1
  | .num _ => 1
  | .str _ => 1
  | .arr xs => jsSizeL xs + 1
  | .obj fs => jsSizeF fs + 1

/-- Total size of a list of JS values. -/
def jsSizeL : List JSValue → Nat
  | [] => 0
  | x :: xs => jsSize x + jsSizeL xs

/-- Total size of a list of JS object fields. -/
def jsSizeF : List (String × JSValue) → Nat
  | [] => 0
  | (_, x) :: fs => jsSize x + jsSizeF fs

end

/-- `JSON.stringify(v)`. -/
def jsonOf (v : JSValue) : Option String := jsonOfFuel (jsSize v) v

/-- String concatenation of a `JSON.stringify` result (JS renders the
`undefined` result as the text `undefined`). -/
def jsonConcat (v : JSValue) : String := (jsonOf v).getD "undefined"

/-- `JSON.stringify` of a literal value. -/
def jsonOfLit : LitValue → String
  | .str s => jsonQuote s
  | .int n => toString n
  | .bool b => if b then "true" else "false"

/-- `LiteralSchema._parse`. -/
def literalParse (l : LitValue) (v : JSValue) (path : List String) : VResult :=
  if l.eqJS v then .success l.toJS
  else .failure ⟨path, "Expected " ++ jsonOfLit l ++ ", got " ++ jsonConcat v, v⟩

/-- The schema tree.  One constructor per concrete `Schema` subclass,
carrying exactly the configuration fields of that class. -/
inductive SchemaNode where
  | string (minLength maxLength : Option Nat) (pattern : Option (String → Bool))
  | number (min max : Option Int) (isPositive isNegative : Bool)
  | boolean (strictTrue strictFalse : Bool)
  | literal (value : LitValue)
  | array (elementSchema : SchemaNode) (minLength maxLength : Option Nat)
  | object (shape : List (String × SchemaNode))
  | union (schemas : List SchemaNode)
  | optional (schema : SchemaNode)
  | nullable (schema : SchemaNode)
  | refinement (schema : SchemaNode) (refineFn : JSValue → Bool) (errorMessage : String)
  | pipe (inputSchema outputSchema : SchemaNode)

mutual

/-- Size of a schema tree (used as the interpreter's fuel bound). -/
def schemaSize : SchemaNode → Nat
  | .string _ _ _ => 1
  | .number _ _ _ _ => 1
  | .boolean _ _ => 1
  | .literal _ => 1
  | .array elem _ _ => schemaSize elem + 1
  | .object shape => schemaSizeF shape + 1
  | .union alts => schemaSizeL alts + 1
  | .optional s => schemaSize s + 1
  | .nullable s => schemaSize s + 1
  | .refinement s _ _ => schemaSize s + 1
  | .pipe a b => schemaSize a + schemaSize b + 1

/-- Total size of a list of schemas. -/
def schemaSizeL : List SchemaNode → Nat
  | [] => 0
  | s :: rest => schemaSize s + schemaSizeL rest

/-- Total size of an object shape. -/
def schemaSizeF : List (String × SchemaNode) → Nat
  | [] => 0
  | (_, s) :: rest => schemaSize s + schemaSizeF rest

end

/-- `ArraySchema._parse`'s element loop: validate elements in index
order against the element parser `pe`, extending the path with the
stringified index; stop at the first failure; on completion return the
accumulated validated elements. -/
def elemsLoop (pe : JSValue → List String → VResult) :
    List JSValue → Nat → List String → List JSValue → VResult
  | [], _, _, acc => .success (.arr acc.reverse)
  | x :: rest, i, path, acc =>
    match pe x (path ++ [Nat.repr i]) with
    | .success d => elemsLoop pe rest (i + 1) path (d :: acc)
    | .failure e => .failure e

/-- The array length checks of `ArraySchema._parse` (also spliced, with
the same messages, into its generated code). -/
def arrayBoundsCheck (minLength maxLength : Option Nat) (xs : List JSValue)
    (path : List String) : Option VErrorInfo :=
  [ minLength.bind (fun m =>
      if xs.length < m then
        some ⟨path, "Array must have at least " ++ toString m ++ " elements", .arr xs⟩
      else none),
    maxLength.bind (fun m =>
      if xs.length > m then
        some ⟨path, "Array must have at most " ++ toString m ++ " elements", .arr xs⟩
      else none) ].findSome? id

/-- `ArraySchema._parse`: type check, length bounds, then the element loop. -/
def arrayStep (pe : JSValue → List String → VResult) (minLength maxLength : Option Nat)
    (v : JSValue) (path : List String) : VResult :=
  match v with
  | .arr xs =>
    match arrayBoundsCheck minLength maxLength xs path with
    | some e => .failure e
    | none => elemsLoop pe xs 0 path []
  | _ => .failure ⟨path, "Expected array, got " ++ typeofStr v, v⟩

/-- `ObjectSchema._parse`'s field loop: for each declared field in the
shape's stored order, extend the path with the field name, look up the
input property (absent → `undefined`), validate with `pf`, stop at the
first failure; on completion return the freshly built record of
declared fields only. -/
def fieldsLoop (pf : SchemaNode → JSValue → List String → VResult) :
    List (String × SchemaNode) → JSValue → List String → List (String × JSValue) → VResult
  | [], _, _, acc => .success (.obj acc.reverse)
  | (key, fieldSchema) :: rest, v, path, acc =>
    match pf fieldSchema (getProp v key) (path ++ [key]) with
    | .success d => fieldsLoop pf rest v path ((key, d) :: acc)
    | .failure e => .failure e

/-- `ObjectSchema._parse`: the `typeof value !== "object" || value === null`
type check, then the field loop. -/
def objectStep (pf : SchemaNode → JSValue → List String → VResult)
    (shape : List (String × SchemaNode)) (v : JSValue) (path : List String) : VResult :=
  if typeofStr v != "object" || isNull v then
    .failure ⟨path, "Expected object, got " ++ (if isNull v then "null" else typeofStr v), v⟩
  else fieldsLoop pf shape v path []

/-- `UnionSchema._parse`'s loop: try each alternative in order against the
same input and path; return the first success verbatim; collect the
failures, and when all alternatives fail, synthesize a single failure at
the union's own path joining every failure message with `"; "`. -/
def altsLoop (pu : SchemaNode → JSValue → List String → VResult) :
    List SchemaNode → JSValue → List String → List VErrorInfo → VResult
  | [], v, path, errs =>
    .failure ⟨path,
      "Value does not match any schema in union: " ++
        String.intercalate "; " (errs.reverse.map VErrorInfo.message), v⟩
  | s :: rest, v, path, errs =>
    match pu s v path with
    | .success d => .success d
    | .failure e => altsLoop pu rest v path (e :: errs)

/-- `UnionSchema._parse`. -/
def unionStep (pu : SchemaNode → JSValue → List String → VResult)
    (alts : List SchemaNode) (v : JSValue) (path : List String) : VResult :=
  altsLoop pu alts v path []

/-- `OptionalSchema._parse`. -/
def optionalStep (pi : JSValue → List String → VResult) (v : JSValue)
    (path : List String) : VResult :=
  if isUndefined v then .success .undefined else pi v path

/-- `NullableSchema._parse`. -/
def nullableStep (pi : JSValue → List String → VResult) (v : JSValue)
    (path : List String) : VResult :=
  if isNull v then .success .null else pi v path

/-- `RefinementSchema._parse`: delegate to the wrapped schema; on its
success run the predicate on the validated value. -/
def refinementStep (pi : JSValue → List String → VResult) (refineFn : JSValue → Bool)
    (errorMessage : String) (v : JSValue) (path : List String) : VResult :=
  match pi v path with
  | .failure e => .failure e
  | .success d => if refineFn d then .success d else .failure ⟨path, errorMessage, d⟩

/-- `PipeSchema._parse`: input schema, then output schema on its value. -/
def pipeStep (p1 p2 : JSValue → List String → VResult) (v : JSValue)
    (path : List String) : VResult :=
  match p1 v path with
  | .failure e => .failure e
  | .success d => p2 d path

/-- The plain recursive interpreter `Schema._parse`, with an explicit fuel
parameter so it is structurally recursive (fuel only decreases when
descending into a child schema; `schemaSize` fuel is always enough). -/
def parseFuel : Nat → SchemaNode → JSValue → List String → VResult
  | 0, _, _, path => .failure ⟨path, "out of fuel", .null⟩
  | fuel + 1, s, v, path =>
    match s with
    | .string a b c => stringParse a b c v path
    | .number a b c d => numberParse a b c d v path
    | .boolean a b => booleanParse a b v path
    | .literal l => literalParse l v path
    | .array elem mn mx => arrayStep (parseFuel fuel elem) mn mx v path
    | .object shape => objectStep (parseFuel fuel) shape v path
    | .union alts => unionStep (parseFuel fuel) alts v path
    | .optional inner => optionalStep (parseFuel fuel inner) v path
    | .nullable inner => nullableStep (parseFuel fuel inner) v path
    | .refinement inner fn msg => refinementStep (parseFuel fuel inner) fn msg v path
    | .pipe a b => pipeStep (parseFuel fuel a) (parseFuel fuel b) v path

/-- `Schema._parse` of a schema node (the plain recursive interpreter). -/
def parseNode (s : SchemaNode) (v : JSValue) (path : List String) : VResult :=
  parseFuel (schemaSize s) s v path

/-!
## The compiled fast path

`compile()` builds `_compiledParse` with `new Function('value', 'path', body)`.
`getCompiledParser()` returns that function and `parse`/`safeParse` invoke it
*detached* (`this.getCompiledParser()(value, this.path)`), so inside the
generated (sloppy-mode) body `this` is the global object, not the schema.
Every generated body that mentions `this` (`this.shape`, `this.schemas`,
`this.schema`, `this.elementSchema`, `this.refineFn`, `this.inputSchema`,
`this.outputSchema`) therefore reads `undefined` and the subsequent member
access raises a `TypeError` at validation time — outside the `try/catch`,
which only guards the `new Function` construction.  Bodies that reference
only `value` and `path` (string, boolean, literal, number via the inherited
default `compile`, and the portions of composite bodies executed before the
first `this`) behave normally.  `compiledRun` is the faithful embedding of
invoking the installed routine; `.error .typeError` is the thrown
`TypeError`.  (Spliced constants — lengths, literal values, object keys —
are assumed to splice faithfully, which holds for all identifier-like keys
and the modelled literal domain.) -/

/-- A host exception escaping from a compiled routine. -/
inductive JSException where
  | typeError : JSException
deriving DecidableEq

/-- Invoke the compiled routine installed by `compile()` for this node
(see the section comment: detached invocation makes `this` resolve to
the global object inside the generated body). -/
def compiledRun (s : SchemaNode) (v : JSValue) (path : List String) :
    Except JSException VResult :=
  match s with
  | .string a b c => .ok (stringParse a b c v path)
  | .number a b c d => .ok (numberParse a b c d v path)
  | .boolean a b => .ok (booleanParse a b v path)
  | .literal l => .ok (literalParse l v path)
  | .array _ mn mx =>
    match v with
    | .arr xs =>
      match arrayBoundsCheck mn mx xs path with
      | some e => .ok (.failure e)
      | none =>
        match xs with
        | [] => .ok (.success (.arr []))
        | _ :: _ => .error .typeError
    | _ => .ok (.failure ⟨path, "Expected array, got " ++ typeofStr v, v⟩)
  | .object shape =>
    if typeofStr v != "object" || isNull v then
      .ok (.failure ⟨path, "Expected object, got " ++ (if isNull v then "null" else typeofStr v), v⟩)
    else
      match shape with
      | [] => .ok (.success (.obj []))
      | _ :: _ => .error .typeError
  | .union _ => .error .typeError
  | .optional _ => if isUndefined v then .ok (.success .undefined) else .error .typeError
  | .nullable _ => if isNull v then .ok (.success .null) else .error .typeError
  | .refinement _ _ _ => .error .typeError
  | .pipe _ _ => .error .typeError

/-- `Schema.safeParse`: invoke the compiled parser with `this.path`
(always `[]` — the public factories never set a path). -/
def safeParse (s : SchemaNode) (v : JSValue) : Except JSException VResult :=
  compiledRun s v []

/-- `ValidationErrorImpl`'s rendered message:
`"<dotted path or <root>>: <detail message>"`. -/
def renderMessage (e : VErrorInfo) : String :=
  (if e.path.isEmpty then "<root>" else String.intercalate "." e.path) ++ ": " ++ e.message

/-- What a call of the throwing entry point does. -/
inductive ParseOutcome where
  | value : JSValue → ParseOutcome
  | thrown : VErrorInfo → String → ParseOutcome
  | jsException : JSException → ParseOutcome

/-- `Schema.parse`: returns the validated value, throws
`ValidationErrorImpl` on a failure result, and lets host exceptions from
the compiled routine escape. -/
def parseEntry (s : SchemaNode) (v : JSValue) : ParseOutcome :=
  match compiledRun s v [] with
  | .ok (.success d) => .value d
  | .ok (.failure e) => .thrown e (renderMessage e)
  | .error ex => .jsException ex

/-!
## Builder methods

Each builder constructs a brand-new schema instance from the receiver's
fields (the receiver is left untouched); these structures mirror the
configuration fields of `StringSchema` and `NumberSchema`. -/

/-- The configuration of a `StringSchema` instance. -/
structure StringSchemaCfg where
  minLength : Option Nat
  maxLength : Option Nat
  pattern : Option (String → Bool)

/-- `StringSchema.min`. -/
def StringSchemaCfg.min (s : StringSchemaCfg) (length : Nat) : StringSchemaCfg :=
  { minLength := some length, maxLength := s.maxLength, pattern := s.pattern }

/-- `StringSchema.max`. -/
def StringSchemaCfg.max (s : StringSchemaCfg) (length : Nat) : StringSchemaCfg :=
  { minLength := s.minLength, maxLength := some length, pattern := s.pattern }

/-- `StringSchema.matches`. -/
def StringSchemaCfg.matches (s : StringSchemaCfg) (pattern : String → Bool) : StringSchemaCfg :=
  { minLength := s.minLength, maxLength := s.maxLength, pattern := some pattern }

/-- The schema node described by a `StringSchema` configuration. -/
def StringSchemaCfg.toNode (s : StringSchemaCfg) : SchemaNode :=
  .string s.minLength s.maxLength s.pattern

/-- The configuration of a `NumberSchema` instance. -/
structure NumberSchemaCfg where
  _min : Option Int
  _max : Option Int
  isPositive : Bool
  isNegative : Bool

/-- `NumberSchema.min`. -/
def NumberSchemaCfg.min (s : NumberSchemaCfg) (val : Int) : NumberSchemaCfg :=
  { _min := some val, _max := s._max, isPositive := s.isPositive, isNegative := s.isNegative }

/-- `NumberSchema.max`. -/
def NumberSchemaCfg.max (s : NumberSchemaCfg) (val : Int) : NumberSchemaCfg :=
  { _min := s._min, _max := some val, isPositive := s.isPositive, isNegative := s.isNegative }

/-- `NumberSchema.positive`. -/
def NumberSchemaCfg.positive (s : NumberSchemaCfg) : NumberSchemaCfg :=
  { _min := s._min, _max := s._max, isPositive := true, isNegative := false }

/-- `NumberSchema.negative`. -/
def NumberSchemaCfg.negative (s : NumberSchemaCfg) : NumberSchemaCfg :=
  { _min := s._min, _max := s._max, isPositive := false, isNegative := true }

/-- The schema node described by a `NumberSchema` configuration. -/
def NumberSchemaCfg.toNode (s : NumberSchemaCfg) : SchemaNode :=
  .number s._min s._max s.isPositive s.isNegative

/-- `Schema.refine` with an explicit message. -/
def refineWith (s : SchemaNode) (refineFn : JSValue → Bool) (errorMessage : String) :
    SchemaNode :=
  .refinement s refineFn errorMessage

/-- `Schema.refine` with the message argument omitted (its default). -/
def refine (s : SchemaNode) (refineFn : JSValue → Bool) : SchemaNode :=
  .refinement s refineFn "Failed refinement check"

/-!
## A stateful model of `RegExp` pattern checks

In the main model a pattern is a pure predicate, which is exact for
regexes without the `g`/`y` flags.  `RegExp.prototype.test`, however, is
*stateful* for a global regex: it searches from `lastIndex`, stores the
match end back into `lastIndex` on success and resets it to `0` on
failure.  `StringSchema._parse` calls `.test` on the single `RegExp`
object captured at construction, so its state persists across
validations; the routine generated by `StringSchema.compile` instead
splices `this.pattern.toString()` into the source text, so every
invocation evaluates a fresh regex literal (same source and flags,
`lastIndex = 0`). -/

/-- A regex value: source text, `global` flag, and its engine — `search s i`
is the end position of the first match at or after `i`, if any. -/
structure JSRegexProg where
  source : String
  globalFlag : Bool
  search : String → Nat → Option Nat

/-- `RegExp.prototype.test`, threading `lastIndex`. -/
def regexTest (r : JSRegexProg) (lastIndex : Nat) (s : String) : Bool × Nat :=
  if r.globalFlag then
    match r.search s lastIndex with
    | some e => (true, e)
    | none => (false, 0)
  else ((r.search s 0).isSome, lastIndex)

/-- The pattern check performed by `StringSchema._parse`: `.test` on the
captured regex object, whose `lastIndex` persists between validations. -/
def interpPatternCheck (r : JSRegexProg) (lastIndex : Nat) (s : String) : Bool × Nat :=
  regexTest r lastIndex s

/-- The pattern check performed by the generated routine: a fresh regex
literal reconstructed from `this.pattern.toString()` is evaluated on each
call, so the check always starts from `lastIndex = 0` and its state is
discarded. -/
def compiledPatternCheck (r : JSRegexProg) (s : String) : Bool :=
  (regexTest r 0 s).fst

/-- `StringSchema._parse` with the stateful pattern model, threading the
captured regex's `lastIndex`. -/
def stringParseStateful (minLength maxLength : Option Nat) (pattern : Option JSRegexProg)
    (lastIndex : Nat) (v : JSValue) (path : List String) : VResult × Nat :=
  match v with
  | .str s =>
    match ([ minLength.bind (fun m =>
              if s.length < m then
                some ⟨path, "String must be at least " ++ toString m ++ " characters", .str s⟩
              else none),
            maxLength.bind (fun m =>
              if s.length > m then
                some ⟨path, "String must be at most " ++ toString m ++ " characters", .str s⟩
              else none) ].findSome? id) with
    | some e => (.failure e, lastIndex)
    | none =>
      match pattern with
      | some r =>
        match interpPatternCheck r lastIndex s with
        | (ok, li) =>
          if !ok then (.failure ⟨path, "String does not match pattern", .str s⟩, li)
          else (.success (.str s), li)
      | none => (.success (.str s), lastIndex)
  | _ => (.failure ⟨path, "Expected string, got " ++ typeofStr v, v⟩, lastIndex)

/-- The generated string routine with the stateful pattern model: the
same checks, but the pattern check uses the reconstructed fresh regex. -/
def stringParseCompiledRe (minLength maxLength : Option Nat) (pattern : Option JSRegexProg)
    (v : JSValue) (path : List String) : VResult :=
  match v with
  | .str s =>
    match ([ minLength.bind (fun m =>
              if s.length < m then
                some ⟨path, "String must be at least " ++ toString m ++ " characters", .str s⟩
              else none),
            maxLength.bind (fun m =>
              if s.length > m then
                some ⟨path, "String must be at most " ++ toString m ++ " characters", .str s⟩
              else none) ].findSome? id) with
    | some e => .failure e
    | none =>
      match pattern with
      | some r =>
        if !compiledPatternCheck r s then
          .failure ⟨path, "String does not match pattern", .str s⟩
        else .success (.str s)
      | none => .success (.str s)
  | _ => .failure ⟨path, "Expected string, got " ++ typeofStr v, v⟩

/-- A concrete global regex: matches `"a"` at the start of the input only
(engine: a match ending at `1` exists exactly when searching from `0` in
`"a"`). -/
def reGlobalA : JSRegexProg :=
  ⟨"a", true, fun s i => if i == 0 && s == "a" then some 1 else none⟩

/-- The per-element results of an element parser along a list, with the
path extended by the stringified index starting at `i`. -/
def idxResults (pe : JSValue → List String → VResult) (path : List String) :
    Nat → List JSValue → List VResult
  | _, [] => []
  | i, x :: rest => pe x (path ++ [Nat.repr i]) :: idxResults pe path (i + 1) rest

/-- The per-field results of the object field loop over a shape. -/
def shapeResults (path : List String) (v : JSValue) :
    List (String × SchemaNode) → List VResult
  | [] => []
  | (k, s) :: rest => parseNode s (getProp v k) (path ++ [k]) :: shapeResults path v rest

/-- `object({...})` evaluated on a shape literal: the shape object's
own-property order is `orderFields` of the declaration order. -/
def objectSchemaLit (shape : List (String × SchemaNode)) : SchemaNode :=
  .object (orderFields shape)

/-!
## Infrastructure lemmas: fuel irrelevance and clean equations
-/

lemma schemaSize_pos (s : SchemaNode) : 1 ≤ schemaSize s := by
  cases s <;> simp [schemaSize]

lemma schemaSizeL_mem {s : SchemaNode} : ∀ {l : List SchemaNode}, s ∈ l →
    schemaSize s ≤ schemaSizeL l := by
  intro l h
  induction l with
  | nil => cases h
  | cons a rest ih =>
    rcases List.mem_cons.mp h with h' | h'
    · subst h'; simp [schemaSizeL]
    · have := ih h'
      simp only [schemaSizeL]
      omega

lemma schemaSizeF_mem {kv : String × SchemaNode} : ∀ {shape : List (String × SchemaNode)},
    kv ∈ shape → schemaSize kv.2 ≤ schemaSizeF shape := by
  intro shape h
  induction shape with
  | nil => cases h
  | cons a rest ih =>
    obtain ⟨k, s⟩ := a
    rcases List.mem_cons.mp h with h' | h'
    · subst h'; simp [schemaSizeF]
    · have := ih h'
      simp only [schemaSizeF]
      omega

lemma elemsLoop_congr {p q : JSValue → List String → VResult}
    (h : ∀ v path, p v path = q v path) :
    ∀ (xs : List JSValue) (i : Nat) (path : List String) (acc : List JSValue),
      elemsLoop p xs i path acc = elemsLoop q xs i path acc := by
  intro xs
  induction xs with
  | nil => intro i path acc; rfl
  | cons x rest ih =>
    intro i path acc
    simp only [elemsLoop, h]
    cases q x (path ++ [Nat.repr i]) with
    | success d => exact ih _ _ _
    | failure e => rfl

lemma fieldsLoop_congr {p q : SchemaNode → JSValue → List String → VResult} :
    ∀ (fields : List (String × SchemaNode)),
      (∀ kv ∈ fields, ∀ v path, p kv.2 v path = q kv.2 v path) →
      ∀ (v : JSValue) (path : List String) (acc : List (String × JSValue)),
        fieldsLoop p fields v path acc = fieldsLoop q fields v path acc := by
  intro fields
  induction fields with
  | nil => intro _ v path acc; rfl
  | cons a rest ih =>
    intro h v path acc
    obtain ⟨key, fs⟩ := a
    have hhead := h (key, fs) (List.mem_cons_self _ _) (getProp v key) (path ++ [key])
    simp only [fieldsLoop, hhead]
    cases q fs (getProp v key) (path ++ [key]) with
    | success d => exact ih (fun kv hkv => h kv (List.mem_cons_of_mem _ hkv)) _ _ _
    | failure e => rfl

lemma altsLoop_congr {p q : SchemaNode → JSValue → List String → VResult} :
    ∀ (alts : List SchemaNode),
      (∀ a ∈ alts, ∀ v path, p a v path = q a v path) →
      ∀ (v : JSValue) (path : List String) (errs : List VErrorInfo),
        altsLoop p alts v path errs = altsLoop q alts v path errs := by
  intro alts
  induction alts with
  | nil => intro _ v path errs; rfl
  | cons a rest ih =>
    intro h v path errs
    have hhead := h a (List.mem_cons_self _ _) v path
    simp only [altsLoop, hhead]
    cases q a v path with
    | success d => rfl
    | failure e => exact ih (fun b hb => h b (List.mem_cons_of_mem _ hb)) _ _ _

lemma arrayStep_congr {p q : JSValue → List String → VResult}
    (h : ∀ v path, p v path = q v path) (mn mx : Option Nat) (v : JSValue)
    (path : List String) : arrayStep p mn mx v path = arrayStep q mn mx v path := by
  cases v <;> simp only [arrayStep]
  case arr xs =>
    cases arrayBoundsCheck mn mx xs path with
    | some e => rfl
    | none => exact elemsLoop_congr h _ _ _ _

lemma objectStep_congr {p q : SchemaNode → JSValue → List String → VResult}
    {shape : List (String × SchemaNode)}
    (h : ∀ kv ∈ shape, ∀ v path, p kv.2 v path = q kv.2 v path)
    (v : JSValue) (path : List String) :
    objectStep p shape v path = objectStep q shape v path := by
  simp only [objectStep]
  split
  · rfl
  · exact fieldsLoop_congr shape h _ _ _

lemma unionStep_congr {p q : SchemaNode → JSValue → List String → VResult}
    {alts : List SchemaNode}
    (h : ∀ a ∈ alts, ∀ v path, p a v path = q a v path)
    (v : JSValue) (path : List String) :
    unionStep p alts v path = unionStep q alts v path :=
  altsLoop_congr alts h v path []

lemma optionalStep_congr {p q : JSValue → List String → VResult}
    (h : ∀ v path, p v path = q v path) (v : JSValue) (path : List String) :
    optionalStep p v path = optionalStep q v path := by
  simp only [optionalStep, h]

lemma nullableStep_congr {p q : JSValue → List String → VResult}
    (h : ∀ v path, p v path = q v path) (v : JSValue) (path : List String) :
    nullableStep p v path = nullableStep q v path := by
  simp only [nullableStep, h]

lemma refinementStep_congr {p q : JSValue → List String → VResult}
    (h : ∀ v path, p v path = q v path) (fn : JSValue → Bool) (msg : String)
    (v : JSValue) (path : List String) :
    refinementStep p fn msg v path = refinementStep q fn msg v path := by
  simp only [refinementStep, h]

lemma pipeStep_congr {p1 q1 p2 q2 : JSValue → List String → VResult}
    (h1 : ∀ v path, p1 v path = q1 v path) (h2 : ∀ v path, p2 v path = q2 v path)
    (v : JSValue) (path : List String) :
    pipeStep p1 p2 v path = pipeStep q1 q2 v path := by
  simp only [pipeStep, h1]
  cases q1 v path with
  | success d => exact h2 _ _
  | failure e => rfl

/-- Any fuel at least `schemaSize` computes the same result. -/
lemma parseFuel_congr : ∀ (n m : Nat) (s : SchemaNode) (v : JSValue) (path : List String),
    schemaSize s ≤ n → schemaSize s ≤ m → parseFuel n s v path = parseFuel m s v path := by
  intro n
  induction n using Nat.strong_induction_on with
  | _ n ih =>
    intro m s v path hn hm
    have hs := schemaSize_pos s
    match n, m with
    | 0, _ => omega
    | _ + 1, 0 => omega
    | n' + 1, m' + 1 =>
      cases s with
      | string a b c => rfl
      | number a b c d => rfl
      | boolean a b => rfl
      | literal l => rfl
      | array elem mn mx =>
        have h1 : schemaSize elem ≤ n' := by simp [schemaSize] at hn; omega
        have h2 : schemaSize elem ≤ m' := by simp [schemaSize] at hm; omega
        exact arrayStep_congr (fun v' p' => ih n' (by omega) m' elem v' p' h1 h2) mn mx v path
      | object shape =>
        refine objectStep_congr (fun kv hkv v' p' => ?_) v path
        have hkv2 := schemaSizeF_mem hkv
        have h1 : schemaSize kv.2 ≤ n' := by simp [schemaSize] at hn; omega
        have h2 : schemaSize kv.2 ≤ m' := by simp [schemaSize] at hm; omega
        exact ih n' (by omega) m' kv.2 v' p' h1 h2
      | union alts =>
        refine unionStep_congr (fun a ha v' p' => ?_) v path
        have ha2 := schemaSizeL_mem ha
        have h1 : schemaSize a ≤ n' := by simp [schemaSize] at hn; omega
        have h2 : schemaSize a ≤ m' := by simp [schemaSize] at hm; omega
        exact ih n' (by omega) m' a v' p' h1 h2
      | optional inner =>
        have h1 : schemaSize inner ≤ n' := by simp [schemaSize] at hn; omega
        have h2 : schemaSize inner ≤ m' := by simp [schemaSize] at hm; omega
        exact optionalStep_congr (fun v' p' => ih n' (by omega) m' inner v' p' h1 h2) v path
      | nullable inner =>
        have h1 : schemaSize inner ≤ n' := by simp [schemaSize] at hn; omega
        have h2 : schemaSize inner ≤ m' := by simp [schemaSize] at hm; omega
        exact nullableStep_congr (fun v' p' => ih n' (by omega) m' inner v' p' h1 h2) v path
      | refinement inner fn msg =>
        have h1 : schemaSize inner ≤ n' := by simp [schemaSize] at hn; omega
        have h2 : schemaSize inner ≤ m' := by simp [schemaSize] at hm; omega
        exact refinementStep_congr (fun v' p' => ih n' (by omega) m' inner v' p' h1 h2) fn msg v path
      | pipe a b =>
        have h1 : schemaSize a ≤ n' ∧ schemaSize b ≤ n' := by simp [schemaSize] at hn; omega
        have h2 : schemaSize a ≤ m' ∧ schemaSize b ≤ m' := by simp [schemaSize] at hm; omega
        exact pipeStep_congr (fun v' p' => ih n' (by omega) m' a v' p' h1.1 h2.1)
          (fun v' p' => ih n' (by omega) m' b v' p' h1.2 h2.2) v path

lemma parseNode_fuel {s : SchemaNode} {n : Nat} (h : schemaSize s ≤ n)
    (v : JSValue) (path : List String) : parseNode s v path = parseFuel n s v path :=
  parseFuel_congr _ _ _ _ _ (le_refl _) h

/-- Interpreter equation: string schemas. -/
lemma parseNode_string (a b : Option Nat) (c : Option (String → Bool)) (v : JSValue)
    (path : List String) : parseNode (.string a b c) v path = stringParse a b c v path := rfl

/-- Interpreter equation: number schemas. -/
lemma parseNode_number (a b : Option Int) (c d : Bool) (v : JSValue) (path : List String) :
    parseNode (.number a b c d) v path = numberParse a b c d v path := rfl

/-- Interpreter equation: boolean schemas. -/
lemma parseNode_boolean (a b : Bool) (v : JSValue) (path : List String) :
    parseNode (.boolean a b) v path = booleanParse a b v path := rfl

/-- Interpreter equation: literal schemas. -/
lemma parseNode_literal (l : LitValue) (v : JSValue) (path : List String) :
    parseNode (.literal l) v path = literalParse l v path := rfl

/-- Interpreter equation: array schemas. -/
lemma parseNode_array (elem : SchemaNode) (mn mx : Option Nat) (v : JSValue)
    (path : List String) :
    parseNode (.array elem mn mx) v path = arrayStep (parseNode elem) mn mx v path := rfl

/-- Interpreter equation: object schemas. -/
lemma parseNode_object (shape : List (String × SchemaNode)) (v : JSValue)
    (path : List String) :
    parseNode (.object shape) v path = objectStep parseNode shape v path := by
  show objectStep (parseFuel (schemaSizeF shape)) shape v path = _
  exact objectStep_congr
    (fun kv hkv v' p' => (parseNode_fuel (schemaSizeF_mem hkv) v' p').symm) v path

/-- Interpreter equation: union schemas. -/
lemma parseNode_union (alts : List SchemaNode) (v : JSValue) (path : List String) :
    parseNode (.union alts) v path = unionStep parseNode alts v path := by
  show unionStep (parseFuel (schemaSizeL alts)) alts v path = _
  exact unionStep_congr
    (fun a ha v' p' => (parseNode_fuel (schemaSizeL_mem ha) v' p').symm) v path

/-- Interpreter equation: optional schemas. -/
lemma parseNode_optional (inner : SchemaNode) (v : JSValue) (path : List String) :
    parseNode (.optional inner) v path = optionalStep (parseNode inner) v path := rfl

/-- Interpreter equation: nullable schemas. -/
lemma parseNode_nullable (inner : SchemaNode) (v : JSValue) (path : List String) :
    parseNode (.nullable inner) v path = nullableStep (parseNode inner) v path := rfl

/-- Interpreter equation: refinement schemas. -/
lemma parseNode_refinement (inner : SchemaNode) (fn : JSValue → Bool) (msg : String)
    (v : JSValue) (path : List String) :
    parseNode (.refinement inner fn msg) v path =
      refinementStep (parseNode inner) fn msg v path := rfl

/-- Interpreter equation: pipe schemas. -/
lemma parseNode_pipe (a b : SchemaNode) (v : JSValue) (path : List String) :
    parseNode (.pipe a b) v path = pipeStep (parseNode a) (parseNode b) v path := by
  show pipeStep (parseFuel (schemaSize a + schemaSize b) a)
      (parseFuel (schemaSize a + schemaSize b) b) v path = _
  exact pipeStep_congr
    (fun v' p' => (parseNode_fuel (by omega) v' p').symm)
    (fun v' p' => (parseNode_fuel (by omega) v' p').symm) v path

/-!
## Characterization lemmas for the composite loops
-/

/-- If every schema in `pre` fails, the union loop skips over `pre` and
the head of the rest decides (accumulating the failures). -/
lemma altsLoop_skip_failures {p : SchemaNode → JSValue → List String → VResult} :
    ∀ (pre rest : List SchemaNode) (v : JSValue) (path : List String)
      (errs : List VErrorInfo),
      (∀ b ∈ pre, (p b v path).isSuccess = false) →
      ∃ errs', altsLoop p (pre ++ rest) v path errs = altsLoop p rest v path errs' := by
  intro pre
  induction pre with
  | nil => intro rest v path errs _; exact ⟨errs, rfl⟩
  | cons b pre' ih =>
    intro rest v path errs h
    have hb := h b (List.mem_cons_self _ _)
    simp only [List.cons_append, altsLoop]
    cases hpb : p b v path with
    | success d => rw [hpb] at hb; simp [VResult.isSuccess] at hb
    | failure e =>
      exact ih rest v path (e :: errs) (fun c hc => h c (List.mem_cons_of_mem _ hc))

/-- If every alternative fails with the listed errors, the union loop
synthesizes a single failure at the union's own path joining all the
messages. -/
lemma altsLoop_all_fail {p : SchemaNode → JSValue → List String → VResult} :
    ∀ (alts : List SchemaNode) (fails : List VErrorInfo) (v : JSValue)
      (path : List String) (errs : List VErrorInfo),
      alts.map (fun a => p a v path) = fails.map VResult.failure →
      altsLoop p alts v path errs =
        .failure ⟨path, "Value does not match any schema in union: " ++
          String.intercalate "; " ((errs.reverse ++ fails).map VErrorInfo.message), v⟩ := by
  intro alts
  induction alts with
  | nil =>
    intro fails v path errs h
    have : fails = [] := by
      cases fails with
      | nil => rfl
      | cons f fs => simp at h
    subst this
    simp [altsLoop]
  | cons a rest ih =>
    intro fails v path errs h
    cases fails with
    | nil => simp at h
    | cons e fs =>
      simp only [List.map_cons, List.cons.injEq] at h
      simp only [altsLoop, h.1]
      rw [ih fs v path (e :: errs) h.2]
      simp

lemma idxResults_length {pe : JSValue → List String → VResult} {path : List String} :
    ∀ (xs : List JSValue) (i : Nat), (idxResults pe path i xs).length = xs.length := by
  intro xs
  induction xs with
  | nil => intro i; rfl
  | cons x rest ih => intro i; simp [idxResults, ih]

/-- If every element validates, the element loop returns the freshly
built array of validated values. -/
lemma elemsLoop_all_success {pe : JSValue → List String → VResult} {path : List String} :
    ∀ (xs : List JSValue) (ds : List JSValue) (i : Nat) (acc : List JSValue),
      idxResults pe path i xs = ds.map VResult.success →
      elemsLoop pe xs i path acc = .success (.arr (acc.reverse ++ ds)) := by
  intro xs
  induction xs with
  | nil =>
    intro ds i acc h
    have : ds = [] := by cases ds with | nil => rfl | cons d ds' => simp [idxResults] at h
    subst this
    simp [elemsLoop]
  | cons x rest ih =>
    intro ds i acc h
    cases ds with
    | nil => simp [idxResults] at h
    | cons d ds' =>
      simp only [idxResults, List.map_cons, List.cons.injEq] at h
      simp only [elemsLoop, h.1]
      rw [ih ds' (i + 1) (d :: acc) h.2]
      simp

/-- If the elements before position `pre.length` validate and the element
there fails, the element loop returns that failure verbatim. -/
lemma elemsLoop_first_failure {pe : JSValue → List String → VResult} {path : List String} :
    ∀ (pre : List JSValue) (ds : List JSValue) (x : JSValue) (rest : List JSValue)
      (e : VErrorInfo) (i : Nat) (acc : List JSValue),
      idxResults pe path i pre = ds.map VResult.success →
      pe x (path ++ [Nat.repr (i + pre.length)]) = .failure e →
      elemsLoop pe (pre ++ x :: rest) i path acc = .failure e := by
  intro pre
  induction pre with
  | nil =>
    intro ds x rest e i acc _ hx
    simp only [List.length_nil, Nat.add_zero] at hx
    simp only [List.nil_append, elemsLoop, hx]
  | cons y pre' ih =>
    intro ds x rest e i acc h hx
    cases ds with
    | nil => simp [idxResults] at h
    | cons d ds' =>
      simp only [idxResults, List.map_cons, List.cons.injEq] at h
      simp only [List.cons_append, elemsLoop, h.1]
      have hx' : pe x (path ++ [Nat.repr ((i + 1) + pre'.length)]) = .failure e := by
        have : (i + 1) + pre'.length = i + (y :: pre').length := by simp; omega
        rw [this]; exact hx
      exact ih ds' x rest e (i + 1) (d :: acc) h.2 hx'

/-- When the array bounds both pass, the bounds check is `none`. -/
lemma arrayBoundsCheck_none {mn mx : Option Nat} {xs : List JSValue} {path : List String}
    (hmn : ∀ m, mn = some m → m ≤ xs.length) (hmx : ∀ m, mx = some m → xs.length ≤ m) :
    arrayBoundsCheck mn mx xs path = none := by
  unfold arrayBoundsCheck
  cases mn with
  | none =>
    cases mx with
    | none => rfl
    | some m =>
      have h2 := hmx m rfl
      simp [List.findSome?, Option.bind, show ¬(m < xs.length) by omega]
  | some m =>
    have h1 := hmn m rfl
    cases mx with
    | none =>
      simp [List.findSome?, Option.bind, show ¬(xs.length < m) by omega]
    | some m' =>
      have h2 := hmx m' rfl
      simp [List.findSome?, Option.bind, show ¬(xs.length < m) by omega,
        show ¬(m' < xs.length) by omega]

/-- If every declared field validates, the field loop returns the freshly
built record keyed by exactly the declared fields. -/
lemma fieldsLoop_all_success {path : List String} {v : JSValue} :
    ∀ (shape : List (String × SchemaNode)) (ds : List JSValue)
      (acc : List (String × JSValue)),
      shapeResults path v shape = ds.map VResult.success →
      fieldsLoop parseNode shape v path acc =
        .success (.obj (acc.reverse ++ (shape.map Prod.fst).zip ds)) := by
  intro shape
  induction shape with
  | nil =>
    intro ds acc h
    have : ds = [] := by cases ds with | nil => rfl | cons d ds' => simp [shapeResults] at h
    subst this
    simp [fieldsLoop]
  | cons kv rest ih =>
    intro ds acc h
    obtain ⟨k, s⟩ := kv
    cases ds with
    | nil => simp [shapeResults] at h
    | cons d ds' =>
      simp only [shapeResults, List.map_cons, List.cons.injEq] at h
      simp only [fieldsLoop, h.1]
      rw [ih ds' ((k, d) :: acc) h.2]
      simp

/-- If the fields before a given one validate and that field fails, the
field loop returns its failure verbatim. -/
lemma fieldsLoop_first_failure {path : List String} {v : JSValue} :
    ∀ (pre : List (String × SchemaNode)) (ds : List JSValue) (k : String)
      (s : SchemaNode) (rest : List (String × SchemaNode)) (e : VErrorInfo)
      (acc : List (String × JSValue)),
      shapeResults path v pre = ds.map VResult.success →
      parseNode s (getProp v k) (path ++ [k]) = .failure e →
      fieldsLoop parseNode (pre ++ (k, s) :: rest) v path acc = .failure e := by
  intro pre
  induction pre with
  | nil =>
    intro ds k s rest e acc _ hk
    simp only [List.nil_append, fieldsLoop, hk]
  | cons kv pre' ih =>
    intro ds k s rest e acc h hk
    obtain ⟨k', s'⟩ := kv
    cases ds with
    | nil => simp [shapeResults] at h
    | cons d ds' =>
      simp only [shapeResults, List.map_cons, List.cons.injEq] at h
      simp only [List.cons_append, fieldsLoop, h.1]
      exact ih ds' k s rest e ((k', d) :: acc) h.2 hk

/-- Absent keys read as `undefined` on object inputs. -/
lemma getProp_absent : ∀ (fields : List (String × JSValue)) (k : String),
    (∀ p ∈ fields, p.1 ≠ k) → getProp (.obj fields) k = .undefined := by
  intro fields k h
  have hf : fields.find? (fun p => p.1 == k) = none := by
    apply List.find?_eq_none.mpr
    intro p hp
    simpa using h p hp
  simp only [getProp, hf]

/-- Shapes without integer-like keys keep their declaration order. -/
lemma orderFields_no_index {α : Type} : ∀ (fs : List (String × α)),
    (∀ kv ∈ fs, isArrayIndexKey kv.1 = false) → orderFields fs = fs := by
  intro fs h
  unfold orderFields
  have h1 : fs.filter (fun p => isArrayIndexKey p.1) = [] := by
    rw [List.filter_eq_nil_iff]
    intro p hp
    simp [h p hp]
  have h2 : fs.filter (fun p => !isArrayIndexKey p.1) = fs := by
    rw [List.filter_eq_self]
    intro p hp
    simp [h p hp]
  rw [h1, h2, sortIdx]
  rfl

/-!
## Claim theorems
-/

/-- C1. The compiled routine installed by `compile()` does **not** produce
the same outcome as the plain interpreter `_parse`: for optional, object,
union and array schemas the generated routine's detached invocation makes
`this` the global object, so it raises a `TypeError` on inputs that the
interpreter validates successfully (the repository's own tests expect
these validations to succeed). -/
theorem compiled_vs_interpreter_divergence :
    parseNode (.optional (.string none none none)) (.str "x") [] = .success (.str "x")
    ∧ compiledRun (.optional (.string none none none)) (.str "x") [] = .error .typeError
    ∧ parseNode (.object [("name", .string none none none)])
        (.obj [("name", .str "John")]) [] = .success (.obj [("name", .str "John")])
    ∧ compiledRun (.object [("name", .string none none none)])
        (.obj [("name", .str "John")]) [] = .error .typeError
    ∧ parseNode (.union [.string none none none]) (.str "x") [] = .success (.str "x")
    ∧ compiledRun (.union [.string none none none]) (.str "x") [] = .error .typeError
    ∧ parseNode (.array (.string none none none) none none) (.arr [.str "x"]) []
        = .success (.arr [.str "x"])
    ∧ compiledRun (.array (.string none none none) none none) (.arr [.str "x"]) []
        = .error .typeError
    ∧ parseNode (.refinement (.string none none none) (fun _ => true) "m") (.str "x") []
        = .success (.str "x")
    ∧ compiledRun (.refinement (.string none none none) (fun _ => true) "m") (.str "x") []
        = .error .typeError :=
  ⟨rfl, rfl, rfl, rfl, rfl, rfl, rfl, rfl, rfl, rfl⟩

/-- C2. `safeParse` is not exception-free: on composite schemas it invokes
the compiled routine, whose body dereferences `this` (the global object)
and throws a `TypeError`; `parse` lets the same exception escape instead
of throwing a `ValidationErrorImpl`. -/
theorem safeParse_throws_typeError :
    safeParse (.optional (.string none none none)) (.str "x") = .error .typeError
    ∧ safeParse (.object [("name", .string none none none)])
        (.obj [("name", .str "John")]) = .error .typeError
    ∧ safeParse (.union []) .null = .error .typeError
    ∧ parseEntry (.object [("name", .string none none none)])
        (.obj [("name", .str "John")]) = .jsException .typeError :=
  ⟨rfl, rfl, rfl, rfl⟩

/-- C3. Union semantics of `_parse`: alternatives are tried in declared
order against the same input and path and the first success is returned
verbatim; when all alternatives fail, a single failure at the union's own
path joins every alternative's message with `"; "`; the empty union
always fails with the empty join; and `union([string(), number()])`
parses `"123"` as the string `"123"`. -/
theorem union_first_match_spec :
    (∀ (pre : List SchemaNode) (a : SchemaNode) (post : List SchemaNode)
        (v : JSValue) (path : List String) (d : JSValue),
        (∀ b ∈ pre, (parseNode b v path).isSuccess = false) →
        parseNode a v path = .success d →
        parseNode (.union (pre ++ a :: post)) v path = .success d)
    ∧ (∀ (alts : List SchemaNode) (fails : List VErrorInfo) (v : JSValue)
        (path : List String),
        alts.map (fun a => parseNode a v path) = fails.map VResult.failure →
        parseNode (.union alts) v path =
          .failure ⟨path, "Value does not match any schema in union: " ++
            String.intercalate "; " (fails.map VErrorInfo.message), v⟩)
    ∧ (∀ (v : JSValue) (path : List String),
        parseNode (.union []) v path =
          .failure ⟨path, "Value does not match any schema in union: ", v⟩)
    ∧ parseNode (.union [.string none none none, .number none none false false])
        (.str "123") [] = .success (.str "123") := by
  refine ⟨?_, ?_, ?_, rfl⟩
  · intro pre a post v path d hpre ha
    rw [parseNode_union, unionStep]
    obtain ⟨errs', h⟩ := altsLoop_skip_failures pre (a :: post) v path [] hpre
    rw [h]
    simp only [altsLoop, ha]
  · intro alts fails v path h
    rw [parseNode_union, unionStep]
    rw [altsLoop_all_fail alts fails v path [] h]
    simp
  · intro v path
    rw [parseNode_union, unionStep]
    rfl

/-- C3 witness: the first-success and all-fail characterizations applied
at concrete schemas and inputs. -/
theorem union_first_match_spec_witness :
    parseNode (.union [.number none none false false, .string none none none])
      (.str "a") [] = .success (.str "a")
    ∧ parseNode (.union [.number none none false false]) (.str "a") [] =
        .failure ⟨[], "Value does not match any schema in union: Expected number, got string",
          .str "a"⟩ := by
  constructor
  · exact union_first_match_spec.1 [.number none none false false]
      (.string none none none) [] (.str "a") [] (.str "a")
      (by intro b hb; simp only [List.mem_singleton] at hb; subst hb; rfl) rfl
  · exact union_first_match_spec.2.1 [.number none none false false]
      [⟨[], "Expected number, got string", .str "a"⟩] (.str "a") [] rfl

/-- C4. Array semantics of `_parse` past the type and length checks:
elements are validated in index order at the stringified-index path; the
first element failure is returned verbatim; on success a freshly built
array of the validated values of the same length is returned; and
`array(number().min(5).max(10))` on `[6,7,11]` fails at path `["2"]` with
the max-bound message. -/
theorem array_fail_fast_spec :
    (∀ (elem : SchemaNode) (mn mx : Option Nat) (xs ds : List JSValue)
        (path : List String),
        (∀ m, mn = some m → m ≤ xs.length) →
        (∀ m, mx = some m → xs.length ≤ m) →
        idxResults (parseNode elem) path 0 xs = ds.map VResult.success →
        parseNode (.array elem mn mx) (.arr xs) path = .success (.arr ds)
          ∧ ds.length = xs.length)
    ∧ (∀ (elem : SchemaNode) (mn mx : Option Nat) (pre : List JSValue)
        (ds : List JSValue) (x : JSValue) (rest : List JSValue) (e : VErrorInfo)
        (path : List String),
        (∀ m, mn = some m → m ≤ (pre ++ x :: rest).length) →
        (∀ m, mx = some m → (pre ++ x :: rest).length ≤ m) →
        idxResults (parseNode elem) path 0 pre = ds.map VResult.success →
        parseNode elem x (path ++ [Nat.repr pre.length]) = .failure e →
        parseNode (.array elem mn mx) (.arr (pre ++ x :: rest)) path = .failure e)
    ∧ parseNode (.array (.number (some 5) (some 10) false false) none none)
        (.arr [.num (.int 6), .num (.int 7), .num (.int 11)]) [] =
        .failure ⟨["2"], "Number must be at most 10", .num (.int 11)⟩ := by
  refine ⟨?_, ?_, rfl⟩
  · intro elem mn mx xs ds path hmn hmx h
    constructor
    · rw [parseNode_array, arrayStep, arrayBoundsCheck_none hmn hmx]
      rw [elemsLoop_all_success xs ds 0 [] h]
      simp
    · have := @idxResults_length (parseNode elem) path xs 0
      rw [h] at this
      simpa using this
  · intro elem mn mx pre ds x rest e path hmn hmx h hx
    rw [parseNode_array, arrayStep, arrayBoundsCheck_none hmn hmx]
    have hx' : parseNode elem x (path ++ [Nat.repr (0 + pre.length)]) = .failure e := by
      simpa using hx
    exact elemsLoop_first_failure pre ds x rest e 0 [] h hx'

/-- C4 witness: the success and fail-fast characterizations applied at
concrete schemas and inputs. -/
theorem array_fail_fast_spec_witness :
    parseNode (.array (.string none none none) none none) (.arr [.str "a", .str "b"]) []
      = .success (.arr [.str "a", .str "b"])
    ∧ parseNode (.array (.string none none none) none none)
        (.arr [.str "a", .num (.int 3), .str "c"]) [] =
        .failure ⟨["1"], "Expected string, got number", .num (.int 3)⟩ := by
  constructor
  · exact (array_fail_fast_spec.1 (.string none none none) none none
      [.str "a", .str "b"] [.str "a", .str "b"] []
      (by intro m hm; cases hm) (by intro m hm; cases hm) rfl).1
  · exact array_fail_fast_spec.2.1 (.string none none none) none none
      [.str "a"] [.str "a"] (.num (.int 3)) [.str "c"]
      ⟨["1"], "Expected string, got number", .num (.int 3)⟩ []
      (by intro m hm; cases hm) (by intro m hm; cases hm) rfl rfl

/-- C5 counterexample. With the shape literal `{"2": number(), "1": string()}`
(declaration order `"2"` then `"1"`), validating `{}` fails on field `"1"`,
not on the first *declared* field `"2"`: JS object-literal evaluation puts
integer-like keys first in ascending numeric order, and `for..in` follows
that property order, not declaration order. -/
theorem object_declaration_order_cx :
    parseNode (objectSchemaLit [("2", .number none none false false),
      ("1", .string none none none)]) (.obj []) [] =
      .failure ⟨["1"], "Expected string, got undefined", .undefined⟩
    ∧ (VResult.failure ⟨["1"], "Expected string, got undefined", .undefined⟩ ≠
        VResult.failure ⟨["2"], "Expected number, got undefined", .undefined⟩) := by
  refine ⟨rfl, ?_⟩
  intro h
  injection h with h1
  injection h1 with hp _ _
  injection hp with hk
  exact absurd hk (by decide)

/-- C5 (amended). Object fields are validated in the shape object's
own-property order — integer-like keys first in ascending numeric order,
then the remaining keys in declaration order (which coincides with
declaration order when no field name is integer-like); each field extends
the path with its name and reads the input property (absent → `undefined`);
the first field failure is returned verbatim; on success the output is a
freshly built record keyed by exactly the declared fields, dropping
undeclared input fields. -/
theorem object_fields_spec :
    (∀ (shape : List (String × SchemaNode)),
        (∀ kv ∈ shape, isArrayIndexKey kv.1 = false) →
        objectSchemaLit shape = .object shape)
    ∧ (∀ (shape : List (String × SchemaNode)) (v : JSValue) (path : List String)
        (ds : List JSValue),
        (typeofStr v != "object" || isNull v) = false →
        shapeResults path v shape = ds.map VResult.success →
        parseNode (.object shape) v path = .success (.obj ((shape.map Prod.fst).zip ds)))
    ∧ (∀ (pre : List (String × SchemaNode)) (ds : List JSValue) (k : String)
        (s : SchemaNode) (rest : List (String × SchemaNode)) (e : VErrorInfo)
        (v : JSValue) (path : List String),
        (typeofStr v != "object" || isNull v) = false →
        shapeResults path v pre = ds.map VResult.success →
        parseNode s (getProp v k) (path ++ [k]) = .failure e →
        parseNode (.object (pre ++ (k, s) :: rest)) v path = .failure e)
    ∧ (∀ (fields : List (String × JSValue)) (k : String),
        (∀ p ∈ fields, p.1 ≠ k) → getProp (.obj fields) k = .undefined)
    ∧ parseNode (objectSchemaLit [("name", .string none none none)])
        (.obj [("name", .str "a"), ("extra", .num (.int 1))]) [] =
        .success (.obj [("name", .str "a")])
    ∧ parseNode (objectSchemaLit [("user",
        objectSchemaLit [("name", .string (some 2) none none)])])
        (.obj [("user", .obj [("name", .str "J")])]) [] =
        .failure ⟨["user", "name"], "String must be at least 2 characters", .str "J"⟩ := by
  refine ⟨?_, ?_, ?_, getProp_absent, rfl, rfl⟩
  · intro shape h
    unfold objectSchemaLit
    rw [orderFields_no_index shape h]
  · intro shape v path ds hty h
    rw [parseNode_object, objectStep, hty]
    simp only [Bool.false_eq_true, if_false]
    rw [fieldsLoop_all_success shape ds [] h]
    simp
  · intro pre ds k s rest e v path hty h hk
    rw [parseNode_object, objectStep, hty]
    simp only [Bool.false_eq_true, if_false]
    exact fieldsLoop_first_failure pre ds k s rest e [] h hk

/-- C5 witness: the success and fail-fast field characterizations applied
at concrete shapes and inputs. -/
theorem object_fields_spec_witness :
    parseNode (.object [("name", .string none none none)])
      (.obj [("name", .str "a")]) [] = .success (.obj [("name", .str "a")])
    ∧ parseNode (.object [("name", .string none none none), ("age", .number none none false false)])
        (.obj [("name", .str "a")]) [] =
        .failure ⟨["age"], "Expected number, got undefined", .undefined⟩ := by
  constructor
  · exact object_fields_spec.2.1 [("name", .string none none none)]
      (.obj [("name", .str "a")]) [] [.str "a"] rfl rfl
  · exact object_fields_spec.2.2.1 [("name", .string none none none)] [.str "a"]
      "age" (.number none none false false) []
      ⟨["age"], "Expected number, got undefined", .undefined⟩
      (.obj [("name", .str "a")]) [] rfl rfl rfl

/-- C6. Refinement semantics of `_parse`: the wrapped schema's failure is
returned unchanged and the predicate is never consulted (the outcome is
the same for any two predicates); only on its success is the predicate
run, on the validated value, a false result failing at the same path with
the supplied message (default `"Failed refinement check"`) and the
validated value as offending value — with the spec's even/min example. -/
theorem refinement_spec :
    (∀ (inner : SchemaNode) (fn fn' : JSValue → Bool) (msg : String) (v : JSValue)
        (path : List String) (e : VErrorInfo),
        parseNode inner v path = .failure e →
        parseNode (.refinement inner fn msg) v path = .failure e
          ∧ parseNode (.refinement inner fn msg) v path =
              parseNode (.refinement inner fn' msg) v path)
    ∧ (∀ (inner : SchemaNode) (fn : JSValue → Bool) (msg : String) (v : JSValue)
        (path : List String) (d : JSValue),
        parseNode inner v path = .success d →
        parseNode (.refinement inner fn msg) v path =
          (if fn d then .success d else .failure ⟨path, msg, d⟩))
    ∧ (∀ (s : SchemaNode) (fn : JSValue → Bool),
        refine s fn = .refinement s fn "Failed refinement check")
    ∧ parseNode (.refinement (.number (some 0) none false false)
        (fun v => match v with | .num (.int n) => n % 2 == 0 | _ => false)
        "must be even") (.num (.int 3)) [] =
        .failure ⟨[], "must be even", .num (.int 3)⟩
    ∧ parseNode (.refinement (.number (some 0) none false false)
        (fun v => match v with | .num (.int n) => n % 2 == 0 | _ => false)
        "must be even") (.num (.int (-2))) [] =
        .failure ⟨[], "Number must be at least 0", .num (.int (-2))⟩ := by
  refine ⟨?_, ?_, fun _ _ => rfl, rfl, rfl⟩
  · intro inner fn fn' msg v path e h
    constructor
    · rw [parseNode_refinement, refinementStep, h]
    · rw [parseNode_refinement, refinementStep, h,
        parseNode_refinement, refinementStep, h]
  · intro inner fn msg v path d h
    rw [parseNode_refinement, refinementStep, h]

/-- C6 witness: the failure-propagation and success-refinement cases
applied at concrete schemas and inputs. -/
theorem refinement_spec_witness :
    parseNode (.refinement (.string none none none) (fun _ => false) "m")
      (.num (.int 1)) [] = .failure ⟨[], "Expected string, got number", .num (.int 1)⟩
    ∧ parseNode (.refinement (.string none none none) (fun _ => false) "m")
        (.str "a") [] = .failure ⟨[], "m", .str "a"⟩ := by
  constructor
  · exact (refinement_spec.1 (.string none none none) (fun _ => false) (fun _ => true)
      "m" (.num (.int 1)) [] ⟨[], "Expected string, got number", .num (.int 1)⟩ rfl).1
  · exact refinement_spec.2.1 (.string none none none) (fun _ => false) "m"
      (.str "a") [] (.str "a") rfl

/-- C7. Wrapper semantics of `_parse`: `optional` succeeds with the absent
result on `undefined` without consulting the inner schema and otherwise
delegates at the same path; `nullable` does the same for `null`; wrappers
compose in nesting order, so `string().optional().nullable()` succeeds
with the absent value on `undefined`, with `null` on `null`, with `"x"`
on `"x"`, and fails with a type mismatch on `5`. -/
theorem optional_nullable_spec :
    (∀ (inner : SchemaNode) (path : List String),
        parseNode (.optional inner) .undefined path = .success .undefined)
    ∧ (∀ (inner : SchemaNode) (v : JSValue) (path : List String),
        isUndefined v = false → parseNode (.optional inner) v path = parseNode inner v path)
    ∧ (∀ (inner : SchemaNode) (path : List String),
        parseNode (.nullable inner) .null path = .success .null)
    ∧ (∀ (inner : SchemaNode) (v : JSValue) (path : List String),
        isNull v = false → parseNode (.nullable inner) v path = parseNode inner v path)
    ∧ parseNode (.nullable (.optional (.string none none none))) .undefined [] = .success .undefined
    ∧ parseNode (.nullable (.optional (.string none none none))) .null [] = .success .null
    ∧ parseNode (.nullable (.optional (.string none none none))) (.str "x") []
        = .success (.str "x")
    ∧ parseNode (.nullable (.optional (.string none none none))) (.num (.int 5)) []
        = .failure ⟨[], "Expected string, got number", .num (.int 5)⟩ := by
  refine ⟨fun inner path => rfl, ?_, fun inner path => rfl, ?_, rfl, rfl, rfl, rfl⟩
  · intro inner v path h
    rw [parseNode_optional, optionalStep, h]
    simp
  · intro inner v path h
    rw [parseNode_nullable, nullableStep, h]
    simp

/-- C7 witness: the delegation cases applied at concrete inputs. -/
theorem optional_nullable_spec_witness :
    parseNode (.optional (.string none none none)) (.str "x") [] =
      parseNode (.string none none none) (.str "x") []
    ∧ parseNode (.nullable (.string none none none)) (.str "x") [] =
        parseNode (.string none none none) (.str "x") [] :=
  ⟨optional_nullable_spec.2.1 (.string none none none) (.str "x") [] rfl,
   optional_nullable_spec.2.2.2.1 (.string none none none) (.str "x") [] rfl⟩

/-- C8 counterexample. `positive()` does not carry the receiver's prior
configuration: on `number().negative()` it resets `isNegative` from
`true` back to `false`, observably — `number().negative().positive()`
accepts `5`, which a node carrying the prior `isNegative` constraint
would reject. -/
theorem number_sign_builder_cx :
    ((NumberSchemaCfg.mk none none false false).negative.positive).isNegative = false
    ∧ ((NumberSchemaCfg.mk none none false false).negative).isNegative = true
    ∧ parseNode ((NumberSchemaCfg.mk none none false false).negative.positive).toNode
        (.num (.int 5)) [] = .success (.num (.int 5))
    ∧ parseNode ((NumberSchemaCfg.mk none none false false).negative).toNode
        (.num (.int 5)) [] = .failure ⟨[], "Number must be negative", .num (.int 5)⟩ :=
  ⟨rfl, rfl, rfl, rfl⟩

/-- C8 (amended). Builders construct a new node and never modify the
receiver: `min`/`max`/`matches` on strings and `min`/`max` on numbers
carry every other configuration field unchanged and set only the new
constraint; `positive()`/`negative()` carry `min`/`max` but set *both*
sign flags, clearing the opposite one; and validation is a pure function
of the node's configuration and the input. -/
theorem builder_immutability_spec :
    (∀ (s : StringSchemaCfg) (n : Nat),
        s.min n = ⟨some n, s.maxLength, s.pattern⟩)
    ∧ (∀ (s : StringSchemaCfg) (n : Nat),
        s.max n = ⟨s.minLength, some n, s.pattern⟩)
    ∧ (∀ (s : StringSchemaCfg) (p : String → Bool),
        s.matches p = ⟨s.minLength, s.maxLength, some p⟩)
    ∧ (∀ (s : NumberSchemaCfg) (n : Int),
        s.min n = ⟨some n, s._max, s.isPositive, s.isNegative⟩)
    ∧ (∀ (s : NumberSchemaCfg) (n : Int),
        s.max n = ⟨s._min, some n, s.isPositive, s.isNegative⟩)
    ∧ (∀ (s : NumberSchemaCfg), s.positive = ⟨s._min, s._max, true, false⟩)
    ∧ (∀ (s : NumberSchemaCfg), s.negative = ⟨s._min, s._max, false, true⟩)
    ∧ (∀ (s : StringSchemaCfg) (n : Nat) (v : JSValue) (path : List String),
        parseNode (s.min n).toNode v path =
          stringParse (some n) s.maxLength s.pattern v path)
    ∧ (∀ (s : StringSchemaCfg) (v : JSValue) (path : List String),
        parseNode s.toNode v path = stringParse s.minLength s.maxLength s.pattern v path) :=
  ⟨fun _ _ => rfl, fun _ _ => rfl, fun _ _ => rfl, fun _ _ => rfl, fun _ _ => rfl,
   fun _ => rfl, fun _ => rfl, fun _ _ _ _ => rfl, fun _ _ _ => rfl⟩

/-- C9 counterexample. The claim fails for a pattern with the `g` flag:
`_parse` calls `.test` on the regex object captured at construction,
whose `lastIndex` persists across validations, while the generated
routine evaluates a fresh regex reconstructed from `pattern.toString()`
on every call.  With the global regex `/a/g`, the second of two
consecutive validations of `"a"` fails under the interpreter but
succeeds under the compiled check, so the compiled pattern check does not
accept exactly the strings the constructed RegExp's `test` accepts. -/
theorem pattern_global_state_cx :
    compiledPatternCheck reGlobalA "a" = true
    ∧ (interpPatternCheck reGlobalA 1 "a").fst = false
    ∧ stringParseStateful none none (some reGlobalA) 0 (.str "a") [] =
        (.success (.str "a"), 1)
    ∧ stringParseStateful none none (some reGlobalA) 1 (.str "a") [] =
        (.failure ⟨[], "String does not match pattern", .str "a"⟩, 0)
    ∧ stringParseCompiledRe none none (some reGlobalA) (.str "a") [] =
        .success (.str "a") :=
  ⟨rfl, rfl, rfl, rfl, rfl⟩

/-- C9 (amended). `_parse`'s pattern check uses the RegExp value captured
at construction; the compiled routine's check uses a regex reconstructed
from the pattern's textual serialization (source and flags preserved),
evaluated afresh on each call.  For patterns without the `g` flag, `test`
is stateless, so the two checks accept exactly the same strings and the
stateful string parser coincides with the compiled one at every
`lastIndex`. -/
theorem pattern_nonglobal_spec :
    (∀ (r : JSRegexProg), r.globalFlag = false → ∀ (li : Nat) (s : String),
        compiledPatternCheck r s = (interpPatternCheck r li s).fst
          ∧ (interpPatternCheck r li s).snd = li)
    ∧ (∀ (r : JSRegexProg), r.globalFlag = false →
        ∀ (mn mx : Option Nat) (li : Nat) (v : JSValue) (path : List String),
        stringParseStateful mn mx (some r) li v path =
          (stringParseCompiledRe mn mx (some r) v path, li)) := by
  constructor
  · intro r hg li s
    simp [compiledPatternCheck, interpPatternCheck, regexTest, hg]
  · intro r hg mn mx li v path
    cases v <;>
      simp only [stringParseStateful, stringParseCompiledRe, interpPatternCheck,
        compiledPatternCheck, regexTest, hg, Bool.false_eq_true, if_false]
    case str s =>
      split
      next e heq => rfl
      next heq => cases (r.search s 0).isSome <;> simp

/-- C9 witness: the non-global equivalence applied to a concrete
non-global regex at a nonzero `lastIndex`. -/
theorem pattern_nonglobal_spec_witness :
    compiledPatternCheck ⟨"a", false, fun s i => if i == 0 && s == "a" then some 1 else none⟩ "a"
      = (interpPatternCheck ⟨"a", false, fun s i => if i == 0 && s == "a" then some 1 else none⟩ 5 "a").fst
    ∧ stringParseStateful none none
        (some ⟨"a", false, fun s i => if i == 0 && s == "a" then some 1 else none⟩) 5 (.str "b") [] =
        (stringParseCompiledRe none none
          (some ⟨"a", false, fun s i => if i == 0 && s == "a" then some 1 else none⟩) (.str "b") [], 5) :=
  ⟨(pattern_nonglobal_spec.1 ⟨"a", false, fun s i => if i == 0 && s == "a" then some 1 else none⟩
      rfl 5 "a").1,
   pattern_nonglobal_spec.2 ⟨"a", false, fun s i => if i == 0 && s == "a" then some 1 else none⟩
      rfl none none 5 (.str "b") []⟩

/-- C10. The object validator's type check rejects exactly the inputs
that are `null` or not of runtime type `"object"`; any other value —
including an array — enters the field loop and is validated field by
field via property lookup, so `object({name: string()})` on `[]` fails at
path `["name"]` with the string field's failure, not with a top-level
object-type mismatch. -/
theorem object_typecheck_spec :
    (∀ (shape : List (String × SchemaNode)) (v : JSValue) (path : List String),
        parseNode (.object shape) v path =
          if typeofStr v != "object" || isNull v then
            .failure ⟨path, "Expected object, got " ++
              (if isNull v then "null" else typeofStr v), v⟩
          else fieldsLoop parseNode shape v path [])
    ∧ (∀ (xs : List JSValue), typeofStr (.arr xs) = "object" ∧ isNull (.arr xs) = false)
    ∧ (∀ (shape : List (String × SchemaNode)) (xs : List JSValue) (path : List String),
        parseNode (.object shape) (.arr xs) path =
          fieldsLoop parseNode shape (.arr xs) path [])
    ∧ parseNode (objectSchemaLit [("name", .string none none none)]) (.arr []) [] =
        .failure ⟨["name"], "Expected string, got undefined", .undefined⟩ := by
  refine ⟨?_, fun xs => ⟨rfl, rfl⟩, ?_, rfl⟩
  · intro shape v path
    rw [parseNode_object, objectStep]
  · intro shape xs path
    rw [parseNode_object, objectStep]
    rfl

end NotZod
